import Mathlib

/-!
Shallow embedding of the indicator-and-signal analysis engine of the
Crypto-Trend-Analysis repository (`analysis_logic.py`, with the row-building
loop of `main` as orchestrator).

Modelling conventions:
* Prices and indicator values are exact rationals (`ℚ`) in place of float64.
* A pandas cell that may be NaN is an `Option ℚ` (`none` = NaN); a DataFrame
  column that may be absent is tracked by a boolean flag in `Cols`
  (`'SMA200' in df.columns`).  IEEE semantics make every comparison against
  NaN false, which the `olt`/`ole`/`ogt`/`oge` helpers encode.
* Code that can raise (pandas positional indexing out of bounds, missing
  column key) returns `Except String α`.
* `time.sleep` calls are recorded in a ghost `sleeps` list and venue calls in
  a ghost `attempts` counter; timestamps stay as integer milliseconds
  (`pd.to_datetime` is a representation change only).
-/

/-- One row of the DataFrame: the OHLCV fields are always present, the eight
derived indicator cells may be NaN (`none`). -/
structure Row where
  timestamp : ℤ
  open_ : ℚ
  high : ℚ
  low : ℚ
  close : ℚ
  volume : ℚ
  sma7 : Option ℚ
  sma25 : Option ℚ
  sma100 : Option ℚ
  sma200 : Option ℚ
  ema20 : Option ℚ
  macd : Option ℚ
  macd_signal : Option ℚ
  macd_hist : Option ℚ
deriving DecidableEq, Inhabited

/-- Which derived columns are present in the DataFrame
(`'SMA200' in df.columns` etc.). -/
structure Cols where
  sma7 : Bool
  sma25 : Bool
  sma100 : Bool
  sma200 : Bool
  ema20 : Bool
  macd : Bool
  macd_signal : Bool
  macd_hist : Bool
deriving DecidableEq, Inhabited

/-- A pandas DataFrame of bars, possibly extended with indicator columns. -/
structure Frame where
  cols : Cols
  rows : List Row
deriving DecidableEq, Inhabited

def noCols : Cols := ⟨false, false, false, false, false, false, false, false⟩

def allCols : Cols := ⟨true, true, true, true, true, true, true, true⟩

/-- One raw OHLCV record as returned by `exchange.fetch_ohlcv`:
`[timestampMs, open, high, low, close, volume]`. -/
structure RawBar where
  ts : ℤ
  o : ℚ
  h : ℚ
  l : ℚ
  c : ℚ
  v : ℚ
deriving DecidableEq, Inhabited

def rawToBar (r : RawBar) : Row :=
  ⟨r.ts, r.o, r.h, r.l, r.c, r.v, none, none, none, none, none, none, none, none⟩

/-- `pd.DataFrame(ohlcv, columns=['timestamp','open','high','low','close','volume'])`:
only the OHLCV columns exist. -/
def mkFrame (ohlcv : List RawBar) : Frame := ⟨noCols, ohlcv.map rawToBar⟩

/-- Float `<` lifted to possibly-NaN cells: any comparison with NaN is false. -/
def olt (a b : Option ℚ) : Bool :=
  match a, b with
  | some x, some y => decide (x < y)
  | _, _ => false

/-- Float `≤` lifted to possibly-NaN cells. -/
def ole (a b : Option ℚ) : Bool :=
  match a, b with
  | some x, some y => decide (x ≤ y)
  | _, _ => false

/-- Float `>` lifted to possibly-NaN cells. -/
def ogt (a b : Option ℚ) : Bool :=
  match a, b with
  | some x, some y => decide (y < x)
  | _, _ => false

/-- Float `≥` lifted to possibly-NaN cells. -/
def oge (a b : Option ℚ) : Bool :=
  match a, b with
  | some x, some y => decide (y ≤ x)
  | _, _ => false

/-- Cell subtraction, NaN-propagating. -/
def osub (a b : Option ℚ) : Option ℚ :=
  match a, b with
  | some x, some y => some (x - y)
  | _, _ => none

/- ----------------------------------------------------------------------
CyclePhaseClassifier: `get_anomaly_phase`.  The implicit wall-clock read
(`datetime.datetime.now().year`) is made an explicit argument; Python `%` on
ints with a positive modulus agrees with `Int.emod`.
---------------------------------------------------------------------- -/

def CYCLE_START_YEAR : ℤ := 2022

def get_anomaly_phase (current_year : ℤ) : String × String :=
  let cycle_position := (current_year - CYCLE_START_YEAR) % 4
  if cycle_position = 0 ∧ current_year ≠ CYCLE_START_YEAR then
    ("下降 (調整年)", "ショート(売り)優先")
  else if cycle_position = 0 ∧ current_year = CYCLE_START_YEAR then
    ("下降 (底打ち年)", "ショート(売り)優先")
  else
    ("上昇 (Year " ++ toString cycle_position ++ ")", "ロング(買い)優先")

/- ----------------------------------------------------------------------
MarketDataSource: `fetch_data`.  The venue is a stub mapping the (0-based)
attempt index to what `exchange.fetch_ohlcv` does on that call; the loop
threads `last_error`, sleeps and the venue-call count are recorded.
---------------------------------------------------------------------- -/

/-- What the venue does on one call: raise, or return a (possibly empty)
list of OHLCV records. -/
inductive VenueResult where
  | err (msg : String)
  | ok (ohlcv : List RawBar)
deriving DecidableEq, Inhabited

structure FetchResult where
  df : Option Frame
  error : Option String
  attempts : ℕ
  sleeps : List ℕ
deriving DecidableEq, Inhabited

/-- The body of `for attempt in range(retries)`, from attempt index `attempt`
with `remaining` iterations left and the current `last_error`. -/
def fetchLoop (venue : ℕ → VenueResult) (attempt remaining : ℕ)
    (last_error : String) : FetchResult :=
  match remaining with
  | 0 => ⟨none, some last_error, 0, []⟩
  | r + 1 =>
    match venue attempt with
    | .ok ohlcv =>
      if ohlcv.isEmpty then
        -- `last_error = "Exchange returned 0 bars"; time.sleep(1); continue`
        let res := fetchLoop venue (attempt + 1) r "Exchange returned 0 bars"
        ⟨res.df, res.error, res.attempts + 1, 1 :: res.sleeps⟩
      else
        ⟨some (mkFrame ohlcv), none, 1, []⟩
    | .err e =>
      -- `except`: `last_error = str(e); time.sleep(1 * (attempt + 1))`
      let res := fetchLoop venue (attempt + 1) r e
      ⟨res.df, res.error, res.attempts + 1, (attempt + 1) :: res.sleeps⟩

def fetch_data (venue : ℕ → VenueResult) (retries : ℕ) : FetchResult :=
  fetchLoop venue 0 retries "Unknown error"

/-- An attempt outcome that the loop treats as a failure. -/
def attemptFails : VenueResult → Bool
  | .err _ => true
  | .ok ohlcv => ohlcv.isEmpty

/-- The error description `fetch_data` records for a failing attempt. -/
def lastErrDesc : VenueResult → String
  | .err m => m
  | .ok _ => "Exchange returned 0 bars"

/-- Modelled from the spec (amended wording for the backoff behaviour): the
wait after each failing attempt is `attempt+1` units when the venue raised and
`1` unit when it returned an empty result; waits stop at the first nonempty
result and also follow the final failing attempt. -/
def specWaitsFrom (venue : ℕ → VenueResult) (attempt remaining : ℕ) : List ℕ :=
  match remaining with
  | 0 => []
  | r + 1 =>
    match venue attempt with
    | .err _ => (attempt + 1) :: specWaitsFrom venue (attempt + 1) r
    | .ok ohlcv =>
      if ohlcv.isEmpty then 1 :: specWaitsFrom venue (attempt + 1) r else []

/- ----------------------------------------------------------------------
IndicatorEngine: `calculate_indicators`, mirroring the pandas_ta helpers it
calls.  `ta.sma(close, n)` is a rolling mean with an `n−1`-bar NaN warm-up;
`ta.ema(close, n)` seeds index `n−1` with the SMA of the first `n` closes and
then applies the `adjust=False` recurrence with `α = 2/(n+1)`; `ta.macd`
subtracts the 26-EMA from the 12-EMA and smooths the valid region of the MACD
line with a 9-EMA.
---------------------------------------------------------------------- -/

def smaList (xs : List ℚ) (n : ℕ) : List (Option ℚ) :=
  (List.range xs.length).map (fun i =>
    if n ≤ i + 1 then some ((((xs.drop (i + 1 - n)).take n).sum) / (n : ℚ))
    else none)

def emaRec (a seed : ℚ) : List ℚ → List ℚ
  | [] => []
  | x :: rest =>
    let v := a * x + (1 - a) * seed
    v :: emaRec a v rest

def emaList (xs : List ℚ) (n : ℕ) : List (Option ℚ) :=
  if xs.length < n ∨ n = 0 then xs.map (fun _ => none)
  else
    let seed := ((xs.take n).sum) / (n : ℚ)
    let a : ℚ := 2 / ((n : ℚ) + 1)
    (List.replicate (n - 1) none) ++ some seed :: (emaRec a seed (xs.drop n)).map some

def macdLine (xs : List ℚ) : List (Option ℚ) :=
  List.zipWith osub (emaList xs 12) (emaList xs 26)

def macdSignalLine (xs : List ℚ) : List (Option ℚ) :=
  let m := macdLine xs
  let lead := (m.takeWhile Option.isNone).length
  List.replicate lead none ++ emaList (m.filterMap id) 9

def macdHistLine (xs : List ℚ) : List (Option ℚ) :=
  List.zipWith osub (macdLine xs) (macdSignalLine xs)

/-- Write the eight indicator columns into the rows (the assignments
`df['SMA7'] = …` … `df.rename(...)`). -/
def calcRows (rows : List Row) : List Row :=
  let closes := rows.map Row.close
  let s7 := smaList closes 7
  let s25 := smaList closes 25
  let s100 := smaList closes 100
  let s200 := smaList closes 200
  let e20 := emaList closes 20
  let m := macdLine closes
  let ms := macdSignalLine closes
  let mh := macdHistLine closes
  (List.range rows.length).map (fun i =>
    { rows.getD i default with
        sma7 := s7.getD i none
        sma25 := s25.getD i none
        sma100 := s100.getD i none
        sma200 := s200.getD i none
        ema20 := e20.getD i none
        macd := m.getD i none
        macd_signal := ms.getD i none
        macd_hist := mh.getD i none })

def calcFrame (f : Frame) : Frame :=
  if f.rows.length < 200 then f
  else ⟨allCols, calcRows f.rows⟩

def calculate_indicators (df : Option Frame) : Option Frame :=
  df.map calcFrame

/-- All derived rows of a raw-bar row are NaN. -/
def rowDerivedNone (r : Row) : Bool :=
  r.sma7.isNone && r.sma25.isNone && r.sma100.isNone && r.sma200.isNone &&
  r.ema20.isNone && r.macd.isNone && r.macd_signal.isNone && r.macd_hist.isNone

/-- Modelled from the spec: the code has no explicit `insufficientHistory`
flag; the spec's flag corresponds to every derived column being absent and
every derived cell unavailable. -/
def insufficientHistory (f : Frame) : Bool :=
  decide (f.cols = noCols) && f.rows.all rowDerivedNone

/- ----------------------------------------------------------------------
TrendClassifier: `analyze_trend`.
---------------------------------------------------------------------- -/

def analyze_trend (df : Option Frame) (timeframe : String) : String :=
  match df with
  | none => "N/A"
  | some f =>
    match f.rows.getLast? with
    | none => "N/A"  -- `df.empty`
    | some last_row =>
      if f.cols.sma200 = false ∨ f.cols.sma100 = false then "データ不足 (>200本必要)"
      else if last_row.sma200 = none then "データ不足"  -- `pd.isna(sma200)`
      else if ogt (some last_row.close) last_row.sma200 &&
              ogt (some last_row.close) last_row.sma100 then "上昇トレンド"
      else if olt (some last_row.close) last_row.sma200 &&
              olt (some last_row.close) last_row.sma100 then "下降トレンド"
      else "レンジ / 中立"

/- ----------------------------------------------------------------------
SignalDetector: `detect_signals`.
---------------------------------------------------------------------- -/

def gcMsg (tf : String) : String := "[" ++ tf ++ "] MACD ゴールデンクロス (安値圏)"

def dcMsg (tf : String) : String := "[" ++ tf ++ "] MACD デッドクロス (高値圏)"

def rmBuyMsg (tf : String) : String :=
  "[" ++ tf ++ "] リターンムーブ買いの可能性 (価格がEMA20に接近 + MACD好転)"

def rmSellMsg (tf : String) : String :=
  "[" ++ tf ++ "] リターンムーブ売りの可能性 (価格がEMA20に接近 + MACD悪化)"

/-- `abs(close - ema20) / close < 0.005` under float semantics: NaN `ema20`
or a zero `close` (which makes the quotient inf or nan) never counts as near. -/
def nearEma20 (close : ℚ) (e : Option ℚ) : Bool :=
  match e with
  | none => false
  | some ev => if close = 0 then false else decide (|close - ev| / close < 1 / 200)

def isGC (pr lr : Row) : Bool :=
  ole pr.macd pr.macd_signal && ogt lr.macd lr.macd_signal

def isDC (pr lr : Row) : Bool :=
  oge pr.macd pr.macd_signal && olt lr.macd lr.macd_signal

def histImproving (pr lr : Row) : Bool :=
  ogt lr.macd_hist pr.macd_hist && olt lr.macd_hist (some 0)

def histDeteriorating (pr lr : Row) : Bool :=
  olt lr.macd_hist pr.macd_hist && ogt lr.macd_hist (some 0)

/-- The `if macd < 0:` block. -/
def longSignals (tf : String) (lr pr : Row) (is_near : Bool) : List String :=
  if olt lr.macd (some 0) then
    (if isGC pr lr then [gcMsg tf] else []) ++
    (if is_near && histImproving pr lr then [rmBuyMsg tf] else [])
  else []

/-- The `if macd > 0:` block. -/
def shortSignals (tf : String) (lr pr : Row) (is_near : Bool) : List String :=
  if ogt lr.macd (some 0) then
    (if isDC pr lr then [dcMsg tf] else []) ++
    (if is_near && histDeteriorating pr lr then [rmSellMsg tf] else [])
  else []

/-- `detect_signals`: note that `df.iloc[-1]` / `df.iloc[-2]` are evaluated
before any guard, so a frame of fewer than two rows raises, and the
`MACD_Signal` / `MACD_Hist` cells are read with only `'MACD'` membership
checked, so their absence raises a KeyError. -/
def detect_signals (df : Option Frame) (timeframe : String) :
    Except String (List String) :=
  match df with
  | none => Except.ok []
  | some f =>
    match f.rows.getLast?, f.rows.dropLast.getLast? with
    | some last_row, some prev_row =>
      if f.cols.ema20 = false then Except.ok []
      else
        let is_near := nearEma20 last_row.close last_row.ema20
        if f.cols.macd = false then Except.ok []
        else if f.cols.macd_signal = false then
          Except.error "KeyError: MACD_Signal"
        else if f.cols.macd_hist = false then
          Except.error "KeyError: MACD_Hist"
        else
          Except.ok (longSignals timeframe last_row prev_row is_near ++
            shortSignals timeframe last_row prev_row is_near)
    | _, _ => Except.error "single positional indexer is out-of-bounds"

/- ----------------------------------------------------------------------
AnalysisOrchestrator: the row-building loop of `main`.  Each timeframe is
given together with what `fetch_data` produced for it.
---------------------------------------------------------------------- -/

structure MainRow where
  label : String
  price : ℚ
  trend : String
  sma200 : ℚ
  macd : ℚ
deriving DecidableEq, Inhabited

/-- One iteration of the loop body: `ok none` is the `else: print(error)`
branch (no row recorded); an `error` is an uncaught exception aborting the
run. -/
def mainStep (tf : String) (df0 : Option Frame) : Except String (Option MainRow) :=
  match df0 with
  | none => Except.ok none
  | some f0 =>
    let df := calcFrame f0
    let trend := analyze_trend (some df) tf
    match detect_signals (some df) tf with
    | Except.error e => Except.error e
    | Except.ok _sigs =>
      match df.rows.getLast? with
      | none => Except.error "single positional indexer is out-of-bounds"
      | some lr =>
        Except.ok (some ⟨tf, lr.close, trend,
          (if df.cols.sma200 then lr.sma200.getD 0 else 0),
          (if df.cols.macd then lr.macd.getD 0 else 0)⟩)

def mainRows (fetches : List (String × Option Frame)) :
    Except String (List MainRow) :=
  match fetches with
  | [] => Except.ok []
  | (tf, df0) :: rest =>
    match mainStep tf df0 with
    | Except.error e => Except.error e
    | Except.ok r? =>
      match mainRows rest with
      | Except.error e => Except.error e
      | Except.ok rs => Except.ok (r?.toList ++ rs)

/- ----------------------------------------------------------------------
Concrete fixtures.
---------------------------------------------------------------------- -/

/-- A bare OHLCV row (every derived cell NaN). -/
def baseRow : Row := ⟨0, 1, 1, 1, 1, 1, none, none, none, none, none, none, none, none⟩

def oneBarFrame : Frame := ⟨noCols, [baseRow]⟩

def twoBarFrame : Frame := ⟨noCols, [baseRow, baseRow]⟩

/-- Last bar: `close = 3`, `SMA200 = 2` available, `SMA100 = NaN`;
both SMA columns present. -/
def c2Frame : Frame :=
  ⟨⟨false, false, true, true, false, false, false, false⟩,
   [⟨0, 1, 1, 1, 3, 1, none, none, none, some 2, none, none, none, none⟩]⟩

/-- A venue stub that raises on every call. -/
def c6Venue : ℕ → VenueResult := fun _ => VenueResult.err "boom"

/- ----------------------------------------------------------------------
Claim theorems.
---------------------------------------------------------------------- -/

/-- C1: the spec says `detect` returns `[]` for frames of fewer than 2 bars,
but the code evaluates `df.iloc[-2]` before any guard: a one-bar frame makes
it raise.  (With at least 2 bars and the MACD/EMA20 columns missing it does
return `[]`.) -/
theorem detect_signals_one_bar_raises :
    detect_signals (some oneBarFrame) "1h" =
      Except.error "single positional indexer is out-of-bounds" ∧
    detect_signals (some twoBarFrame) "1h" = Except.ok [] := ⟨rfl, rfl⟩

/-- C2 counterexample: a frame whose last bar has `sma100 = NaN` but
`sma200` available is classified `Range`, not `InsufficientData` as the
claim requires. -/
theorem analyze_trend_nan_sma100_cex :
    analyze_trend (some c2Frame) "1d" = "レンジ / 中立" ∧
    analyze_trend (some c2Frame) "1d" ≠ "データ不足" ∧
    analyze_trend (some c2Frame) "1d" ≠ "データ不足 (>200本必要)" := by decide

/-- C7 counterexample: the phase label distinguishes the reference year, so
`classify(2022) ≠ classify(2026)` and period-4 equality fails as stated. -/
theorem anomaly_phase_not_periodic_at_reference :
    get_anomaly_phase 2022 ≠ get_anomaly_phase 2026 := by decide

/-- C8 counterexample: for 2025 the cycle position is `(2025−2022) % 4 = 3`,
not 1, so the claimed result is wrong. -/
theorem anomaly_phase_2025_cex :
    get_anomaly_phase 2025 ≠ ("上昇 (Year 1)", "ロング(買い)優先") := by decide

/-- C8 amended: `classify(2025)` computes position 3 and returns the up-year
phase for position 3 with the long bias. -/
theorem anomaly_phase_2025 :
    get_anomaly_phase 2025 = ("上昇 (Year 3)", "ロング(買い)優先") := by decide

/-- C6 counterexample: with a venue that always raises and 2 retries, the
code sleeps after both failing attempts — `[1, 2]` — whereas the claim
predicts no wait after the final attempt (`[1]`). -/
theorem fetch_waits_after_final_attempt_cex :
    (fetch_data c6Venue 2).sleeps = [1, 2] ∧
    (fetch_data c6Venue 2).sleeps ≠ [1] := by decide

/-- C10: a fetch `Failure` (`None`) propagates through the pipeline as
degraded results without raising: `calculate_indicators` returns it
unchanged, `analyze_trend` returns `"N/A"`, `detect_signals` returns `[]`. -/
theorem none_propagates (tf : String) :
    calculate_indicators none = none ∧
    analyze_trend none tf = "N/A" ∧
    detect_signals none tf = Except.ok [] := ⟨rfl, rfl, rfl⟩

/-- C3: a series shorter than 200 bars is returned unmodified, with every
derived column absent, every derived cell unavailable, and hence the
insufficient-history state set. -/
theorem calculate_indicators_short_series (ohlcv : List RawBar)
    (h : ohlcv.length < 200) :
    calculate_indicators (some (mkFrame ohlcv)) = some (mkFrame ohlcv) ∧
    insufficientHistory (mkFrame ohlcv) = true := by
  constructor
  · have hlen : (mkFrame ohlcv).rows.length < 200 := by
      simpa [mkFrame] using h
    simp [calculate_indicators, calcFrame, hlen]
  · simp [insufficientHistory, mkFrame, noCols, List.all_eq_true, List.mem_map]
    intro a _
    rfl

theorem calculate_indicators_short_series_witness :
    calculate_indicators (some (mkFrame [])) = some (mkFrame []) ∧
    insufficientHistory (mkFrame []) = true :=
  calculate_indicators_short_series [] (by decide)

/-- C7 amended: the bias is periodic with period 4 for every year, the whole
result is periodic whenever neither year is the reference year 2022 (whose
phase label alone differs), and every position-0 year gets the short bias. -/
theorem get_anomaly_phase_periodic (y : ℤ) :
    (get_anomaly_phase y).2 = (get_anomaly_phase (y + 4)).2 ∧
    (y ≠ 2022 → y + 4 ≠ 2022 → get_anomaly_phase y = get_anomaly_phase (y + 4)) ∧
    ((y - 2022) % 4 = 0 → (get_anomaly_phase y).2 = "ショート(売り)優先") := by
  have hmod : (y + 4 - 2022) % 4 = (y - 2022) % 4 := by omega
  simp only [get_anomaly_phase, CYCLE_START_YEAR]
  rw [hmod]
  by_cases h0 : (y - 2022) % 4 = 0
  · by_cases h22 : y = 2022
    · subst h22
      simp
    · by_cases h18 : y + 4 = 2022
      · simp [h0, h22, h18]
      · simp [h0, h22, h18]
  · simp [h0]

theorem get_anomaly_phase_periodic_witness :
    (get_anomaly_phase 2026).2 = (get_anomaly_phase 2030).2 ∧
    get_anomaly_phase 2026 = get_anomaly_phase 2030 ∧
    (get_anomaly_phase 2026).2 = "ショート(売り)優先" :=
  ⟨(get_anomaly_phase_periodic 2026).1,
   (get_anomaly_phase_periodic 2026).2.1 (by decide) (by decide),
   (get_anomaly_phase_periodic 2026).2.2 (by decide)⟩

theorem fetchLoop_sleeps (venue : ℕ → VenueResult) :
    ∀ remaining attempt le,
      (fetchLoop venue attempt remaining le).sleeps =
        specWaitsFrom venue attempt remaining := by
  intro remaining
  induction remaining with
  | zero => intro a le; rfl
  | succ r ih =>
    intro a le
    simp only [fetchLoop, specWaitsFrom]
    cases hv : venue a with
    | err m => simp [ih]
    | ok ohlcv =>
      by_cases he : ohlcv.isEmpty <;> simp [he, ih]

/-- C6 amended: the wait after a failing attempt `k` (1-indexed) is `k` time
units when the venue raised but `1` unit when it returned an empty result,
and a wait follows every failing attempt, including the final one. -/
theorem fetch_data_waits (venue : ℕ → VenueResult) (retries : ℕ) :
    (fetch_data venue retries).sleeps = specWaitsFrom venue 0 retries :=
  fetchLoop_sleeps venue retries 0 "Unknown error"

theorem fetchLoop_err_step (venue : ℕ → VenueResult) (a rem : ℕ) (le m : String)
    (hv : venue a = VenueResult.err m) :
    fetchLoop venue a (rem + 1) le =
      ⟨(fetchLoop venue (a + 1) rem m).df, (fetchLoop venue (a + 1) rem m).error,
       (fetchLoop venue (a + 1) rem m).attempts + 1,
       (a + 1) :: (fetchLoop venue (a + 1) rem m).sleeps⟩ := by
  rw [fetchLoop, hv]

theorem fetchLoop_empty_step (venue : ℕ → VenueResult) (a rem : ℕ) (le : String)
    (ohlcv : List RawBar) (hv : venue a = VenueResult.ok ohlcv)
    (he : ohlcv.isEmpty = true) :
    fetchLoop venue a (rem + 1) le =
      ⟨(fetchLoop venue (a + 1) rem "Exchange returned 0 bars").df,
       (fetchLoop venue (a + 1) rem "Exchange returned 0 bars").error,
       (fetchLoop venue (a + 1) rem "Exchange returned 0 bars").attempts + 1,
       1 :: (fetchLoop venue (a + 1) rem "Exchange returned 0 bars").sleeps⟩ := by
  rw [fetchLoop, hv]
  simp [he]

theorem fetchLoop_success_step (venue : ℕ → VenueResult) (a rem : ℕ) (le : String)
    (ohlcv : List RawBar) (hv : venue a = VenueResult.ok ohlcv)
    (he : ohlcv.isEmpty = false) :
    fetchLoop venue a (rem + 1) le = ⟨some (mkFrame ohlcv), none, 1, []⟩ := by
  rw [fetchLoop, hv]
  simp [he]

theorem fetchLoop_all_fail (venue : ℕ → VenueResult)
    (hf : ∀ k, attemptFails (venue k) = true) :
    ∀ r attempt le,
      (fetchLoop venue attempt (r + 1) le).df = none ∧
      (fetchLoop venue attempt (r + 1) le).error =
        some (lastErrDesc (venue (attempt + r))) ∧
      (fetchLoop venue attempt (r + 1) le).attempts = r + 1 := by
  intro r
  induction r with
  | zero =>
    intro a le
    have hfa := hf a
    cases hv : venue a with
    | err m => simp [fetchLoop, hv, lastErrDesc]
    | ok ohlcv =>
      rw [hv] at hfa
      simp only [attemptFails] at hfa
      simp [fetchLoop, hv, hfa, lastErrDesc]
  | succ r ih =>
    intro a le
    have hfa := hf a
    have harith : a + 1 + r = a + (r + 1) := by omega
    cases hv : venue a with
    | err m =>
      have h3 := ih (a + 1) m
      rw [harith] at h3
      rw [fetchLoop_err_step venue a (r + 1) le m hv]
      exact ⟨h3.1, h3.2.1, by show (fetchLoop venue (a + 1) (r + 1) m).attempts + 1 = r + 1 + 1; rw [h3.2.2]⟩
    | ok ohlcv =>
      rw [hv] at hfa
      simp only [attemptFails] at hfa
      have h3 := ih (a + 1) "Exchange returned 0 bars"
      rw [harith] at h3
      rw [fetchLoop_empty_step venue a (r + 1) le ohlcv hv hfa]
      exact ⟨h3.1, h3.2.1,
        by show (fetchLoop venue (a + 1) (r + 1) "Exchange returned 0 bars").attempts + 1 = r + 1 + 1
           rw [h3.2.2]⟩

theorem fetchLoop_eventual_success (venue : ℕ → VenueResult) :
    ∀ (r attempt : ℕ) (le : String) (ohlcv : List RawBar), ohlcv ≠ [] →
      (∀ k, k < r → attemptFails (venue (attempt + k)) = true) →
      venue (attempt + r) = VenueResult.ok ohlcv →
      (fetchLoop venue attempt (r + 1) le).df = some (mkFrame ohlcv) ∧
      (fetchLoop venue attempt (r + 1) le).error = none ∧
      (fetchLoop venue attempt (r + 1) le).attempts = r + 1 := by
  intro r
  induction r with
  | zero =>
    intro a le ohlcv hne _ hv
    rw [Nat.add_zero] at hv
    have hempty : ohlcv.isEmpty = false := by
      cases ohlcv with
      | nil => exact absurd rfl hne
      | cons x xs => rfl
    rw [fetchLoop_success_step venue a 0 le ohlcv hv hempty]
    exact ⟨rfl, rfl, rfl⟩
  | succ r ih =>
    intro a le ohlcv hne hfail hv
    have hfa := hfail 0 (by omega)
    rw [Nat.add_zero] at hfa
    have harith : a + 1 + r = a + (r + 1) := by omega
    have hfail' : ∀ k, k < r → attemptFails (venue (a + 1 + k)) = true := by
      intro k hk
      have : a + 1 + k = a + (k + 1) := by omega
      rw [this]
      exact hfail (k + 1) (by omega)
    cases hv1 : venue a with
    | err m =>
      have h3 := ih (a + 1) m ohlcv hne hfail' (by rw [harith]; exact hv)
      rw [fetchLoop_err_step venue a (r + 1) le m hv1]
      exact ⟨h3.1, h3.2.1,
        by show (fetchLoop venue (a + 1) (r + 1) m).attempts + 1 = r + 1 + 1
           rw [h3.2.2]⟩
    | ok ohlcv1 =>
      rw [hv1] at hfa
      simp only [attemptFails] at hfa
      have h3 := ih (a + 1) "Exchange returned 0 bars" ohlcv hne hfail'
        (by rw [harith]; exact hv)
      rw [fetchLoop_empty_step venue a (r + 1) le ohlcv1 hv1 hfa]
      exact ⟨h3.1, h3.2.1,
        by show (fetchLoop venue (a + 1) (r + 1) "Exchange returned 0 bars").attempts + 1 = r + 1 + 1
           rw [h3.2.2]⟩

/-- C5: with a venue stub failing on every attempt, `fetch_data` makes
exactly `retries` venue calls and returns a Failure carrying the last
observed error description; with a stub failing the first `retries − 1`
attempts and succeeding on the last, it returns a valid bar series.  (The
model is a total function: every venue exception is caught, so nothing
propagates past this boundary.) -/
theorem fetch_data_retry_contract (venue : ℕ → VenueResult) (retries : ℕ)
    (h1 : 1 ≤ retries) :
    ((∀ k, attemptFails (venue k) = true) →
      (fetch_data venue retries).df = none ∧
      (fetch_data venue retries).error =
        some (lastErrDesc (venue (retries - 1))) ∧
      (fetch_data venue retries).attempts = retries) ∧
    (∀ ohlcv : List RawBar, ohlcv ≠ [] →
      (∀ k, k + 1 < retries → attemptFails (venue k) = true) →
      venue (retries - 1) = VenueResult.ok ohlcv →
      (fetch_data venue retries).df = some (mkFrame ohlcv) ∧
      (fetch_data venue retries).error = none ∧
      (fetch_data venue retries).attempts = retries) := by
  obtain ⟨r, rfl⟩ : ∃ r, retries = r + 1 := ⟨retries - 1, by omega⟩
  constructor
  · intro hf
    have h3 := fetchLoop_all_fail venue hf r 0 "Unknown error"
    rw [Nat.zero_add] at h3
    simpa [fetch_data] using h3
  · intro ohlcv hne hf hv
    have hfail : ∀ k, k < r → attemptFails (venue (0 + k)) = true := by
      intro k hk
      rw [Nat.zero_add]
      exact hf k (by omega)
    have hv' : venue (0 + r) = VenueResult.ok ohlcv := by
      rw [Nat.zero_add]
      simpa using hv
    have h3 := fetchLoop_eventual_success venue r 0 "Unknown error" ohlcv hne hfail hv'
    simpa [fetch_data] using h3

def c5Bar : RawBar := ⟨0, 1, 1, 1, 1, 1⟩

/-- Raises on every call. -/
def c5VenueFail : ℕ → VenueResult := fun _ => VenueResult.err "network down"

/-- Raises on the first two calls, returns one bar on the third. -/
def c5VenueRecover : ℕ → VenueResult :=
  fun k => if k < 2 then VenueResult.err "boom" else VenueResult.ok [c5Bar]

theorem fetch_data_retry_contract_witness :
    ((fetch_data c5VenueFail 3).df = none ∧
     (fetch_data c5VenueFail 3).error = some "network down" ∧
     (fetch_data c5VenueFail 3).attempts = 3) ∧
    ((fetch_data c5VenueRecover 3).df = some (mkFrame [c5Bar]) ∧
     (fetch_data c5VenueRecover 3).error = none ∧
     (fetch_data c5VenueRecover 3).attempts = 3) := by
  constructor
  · exact (fetch_data_retry_contract c5VenueFail 3 (by omega)).1 (fun k => rfl)
  · refine (fetch_data_retry_contract c5VenueRecover 3 (by omega)).2 [c5Bar]
      (by decide) ?_ rfl
    intro k hk
    have hk2 : k < 2 := by omega
    simp [c5VenueRecover, hk2, attemptFails]

/-- C2 amended: `analyze_trend` maps an empty frame to N/A, a missing SMA
column to the insufficient-data label, a NaN `sma200` at the last bar to the
insufficient-data label, and otherwise compares the last close against the
two SMAs — except that a NaN `sma100` with an available `sma200` falls
through to Range, not to insufficient data. -/
theorem analyze_trend_classification (f : Frame) (tf : String) :
    (f.rows.getLast? = none → analyze_trend (some f) tf = "N/A") ∧
    ((f.cols.sma200 = false ∨ f.cols.sma100 = false) →
      ∀ lr, f.rows.getLast? = some lr →
        analyze_trend (some f) tf = "データ不足 (>200本必要)") ∧
    (∀ lr, f.rows.getLast? = some lr → f.cols.sma200 = true →
      f.cols.sma100 = true →
      (lr.sma200 = none → analyze_trend (some f) tf = "データ不足") ∧
      (∀ s200 s100, lr.sma200 = some s200 → lr.sma100 = some s100 →
        analyze_trend (some f) tf =
          (if s200 < lr.close ∧ s100 < lr.close then "上昇トレンド"
           else if lr.close < s200 ∧ lr.close < s100 then "下降トレンド"
           else "レンジ / 中立")) ∧
      (lr.sma100 = none → ∀ s200, lr.sma200 = some s200 →
        analyze_trend (some f) tf = "レンジ / 中立")) := by
  refine ⟨?_, ?_, ?_⟩
  · intro hL
    simp [analyze_trend, hL]
  · intro hcol lr hlr
    rcases hcol with hc | hc <;> simp [analyze_trend, hlr, hc]
  · intro lr hlr h200 h100
    refine ⟨?_, ?_, ?_⟩
    · intro hna
      simp [analyze_trend, hlr, h200, h100, hna]
    · intro s200 s100 h2 h1
      by_cases hup : s200 < lr.close ∧ s100 < lr.close
      · simp [analyze_trend, hlr, h200, h100, h2, h1, ogt, olt, hup.1, hup.2, hup]
      · by_cases hdn : lr.close < s200 ∧ lr.close < s100
        · have hn2 : ¬ s200 < lr.close := lt_asymm hdn.1
          simp [analyze_trend, hlr, h200, h100, h2, h1, ogt, olt, hn2, hdn.1,
            hdn.2, hup, hdn]
        · simp only [not_and_or] at hup hdn
          rcases hup with hu | hu <;> rcases hdn with hd | hd <;>
            simp [analyze_trend, hlr, h200, h100, h2, h1, ogt, olt, hu, hd]
    · intro hna s200 h2
      simp [analyze_trend, hlr, h200, h100, h2, hna, ogt, olt]

/-- Last bar: `close = 3`, `SMA200 = 2`, `SMA100 = 1`, both columns present. -/
def c2wFrame : Frame :=
  ⟨⟨false, false, true, true, false, false, false, false⟩,
   [⟨0, 1, 1, 1, 3, 1, none, none, some 1, some 2, none, none, none, none⟩]⟩

theorem analyze_trend_classification_witness :
    analyze_trend (some c2wFrame) "1d" = "上昇トレンド" := by
  have h := ((analyze_trend_classification c2wFrame "1d").2.2
    ⟨0, 1, 1, 1, 3, 1, none, none, some 1, some 2, none, none, none, none⟩
    rfl rfl rfl).2.1 2 1 rfl rfl
  rw [h]
  norm_num

theorem tagged_ne (tf : String) {a b : String} (h : a.data ≠ b.data) :
    "[" ++ tf ++ a ≠ "[" ++ tf ++ b := by
  intro he
  apply h
  have hd := congrArg String.data he
  rw [String.data_append, String.data_append, String.data_append,
    String.data_append] at hd
  exact List.append_cancel_left hd

theorem gc_ne_dc (tf : String) : gcMsg tf ≠ dcMsg tf := tagged_ne tf (by decide)

theorem gc_ne_rmSell (tf : String) : gcMsg tf ≠ rmSellMsg tf :=
  tagged_ne tf (by decide)

theorem rmBuy_ne_dc (tf : String) : rmBuyMsg tf ≠ dcMsg tf :=
  tagged_ne tf (by decide)

theorem rmBuy_ne_rmSell (tf : String) : rmBuyMsg tf ≠ rmSellMsg tf :=
  tagged_ne tf (by decide)

theorem olt_zero_not_ogt (a : Option ℚ) (h : olt a (some 0) = true) :
    ogt a (some 0) = false := by
  cases a with
  | none => rfl
  | some x =>
    simp only [olt, decide_eq_true_eq] at h
    simp only [ogt, decide_eq_false_iff_not]
    linarith

theorem longSignals_mem (tf : String) (lr pr : Row) (n : Bool) (x : String)
    (hx : x ∈ longSignals tf lr pr n) : x = gcMsg tf ∨ x = rmBuyMsg tf := by
  unfold longSignals at hx
  split_ifs at hx <;> simp_all

theorem shortSignals_mem (tf : String) (lr pr : Row) (n : Bool) (x : String)
    (hx : x ∈ shortSignals tf lr pr n) : x = dcMsg tf ∨ x = rmSellMsg tf := by
  unfold shortSignals at hx
  split_ifs at hx <;> simp_all

theorem longSignals_length_le (tf : String) (lr pr : Row) (n : Bool) :
    (longSignals tf lr pr n).length ≤ 2 := by
  unfold longSignals
  split_ifs <;> simp

theorem shortSignals_length_le (tf : String) (lr pr : Row) (n : Bool) :
    (shortSignals tf lr pr n).length ≤ 2 := by
  unfold shortSignals
  split_ifs <;> simp

theorem longSignals_empty (tf : String) (lr pr : Row) (n : Bool)
    (h : olt lr.macd (some 0) = false) : longSignals tf lr pr n = [] := by
  simp [longSignals, h]

theorem shortSignals_empty (tf : String) (lr pr : Row) (n : Bool)
    (h : ogt lr.macd (some 0) = false) : shortSignals tf lr pr n = [] := by
  simp [shortSignals, h]

/-- C9: a call that returns signals emits at most two of them, never mixes a
long-direction message with a short-direction one (the `macd < 0` and
`macd > 0` gates are mutually exclusive), and emits nothing when the last
bar's MACD is exactly 0. -/
theorem detect_signals_exclusive (df : Option Frame) (tf : String)
    (sigs : List String) (h : detect_signals df tf = Except.ok sigs) :
    sigs.length ≤ 2 ∧
    ¬((gcMsg tf ∈ sigs ∨ rmBuyMsg tf ∈ sigs) ∧
      (dcMsg tf ∈ sigs ∨ rmSellMsg tf ∈ sigs)) ∧
    (∀ g lr, df = some g → g.rows.getLast? = some lr → lr.macd = some 0 →
      sigs = []) := by
  cases df with
  | none =>
    simp only [detect_signals, Except.ok.injEq] at h
    subst h
    refine ⟨by simp, by simp, ?_⟩
    intro g lr hg
    exact absurd hg (by simp)
  | some f =>
    cases hL : f.rows.getLast? with
    | none =>
      simp only [detect_signals, hL] at h
      exact absurd h (by simp)
    | some lr =>
      cases hP : f.rows.dropLast.getLast? with
      | none =>
        simp only [detect_signals, hL, hP] at h
        exact absurd h (by simp)
      | some pr =>
        simp only [detect_signals, hL, hP] at h
        by_cases hE : f.cols.ema20 = false
        · rw [if_pos hE] at h
          simp only [Except.ok.injEq] at h
          subst h
          exact ⟨by simp, by simp, fun g lr' hg hlr' hm => rfl⟩
        · rw [if_neg hE] at h
          by_cases hM : f.cols.macd = false
          · rw [if_pos hM] at h
            simp only [Except.ok.injEq] at h
            subst h
            exact ⟨by simp, by simp, fun g lr' hg hlr' hm => rfl⟩
          · rw [if_neg hM] at h
            by_cases hS : f.cols.macd_signal = false
            · rw [if_pos hS] at h
              exact absurd h (by simp)
            · rw [if_neg hS] at h
              by_cases hH : f.cols.macd_hist = false
              · rw [if_pos hH] at h
                exact absurd h (by simp)
              · rw [if_neg hH] at h
                simp only [Except.ok.injEq] at h
                subst h
                by_cases h0 : olt lr.macd (some 0) = true
                · rw [shortSignals_empty tf lr pr _ (olt_zero_not_ogt lr.macd h0),
                    List.append_nil]
                  refine ⟨longSignals_length_le tf lr pr _, ?_, ?_⟩
                  · rintro ⟨_, hshort⟩
                    rcases hshort with hm | hm <;>
                      rcases longSignals_mem tf lr pr _ _ hm with he | he
                    · exact gc_ne_dc tf he.symm
                    · exact rmBuy_ne_dc tf he.symm
                    · exact gc_ne_rmSell tf he.symm
                    · exact rmBuy_ne_rmSell tf he.symm
                  · intro g lr' hg hlr' hm
                    injection hg with hg
                    subst hg
                    rw [hL] at hlr'
                    injection hlr' with hlr'
                    subst hlr'
                    rw [hm] at h0
                    exact absurd h0 (by simp [olt])
                · have h0' : olt lr.macd (some 0) = false := by
                    simpa using h0
                  rw [longSignals_empty tf lr pr _ h0', List.nil_append]
                  refine ⟨shortSignals_length_le tf lr pr _, ?_, ?_⟩
                  · rintro ⟨hlong, _⟩
                    rcases hlong with hm | hm <;>
                      rcases shortSignals_mem tf lr pr _ _ hm with he | he
                    · exact gc_ne_dc tf he
                    · exact gc_ne_rmSell tf he
                    · exact rmBuy_ne_dc tf he
                    · exact rmBuy_ne_rmSell tf he
                  · intro g lr' hg hlr' hm
                    injection hg with hg
                    subst hg
                    rw [hL] at hlr'
                    injection hlr' with hlr'
                    subst hlr'
                    exact shortSignals_empty tf lr pr _ (by rw [hm]; rfl)

/-- Two bars with all indicator columns: previous MACD −1 at or below its
signal 0, last MACD −1 above its signal −2, MACD negative — a golden cross
in the low zone. -/
def c9Frame : Frame :=
  ⟨allCols,
   [⟨0, 1, 1, 1, 1, 1, none, none, none, none, none, some (-1), some 0, none⟩,
    ⟨0, 1, 1, 1, 1, 1, none, none, none, none, none, some (-1), some (-2), none⟩]⟩

theorem detect_signals_exclusive_witness :
    ([gcMsg "1d"].length ≤ 2) ∧
    ¬((gcMsg "1d" ∈ [gcMsg "1d"] ∨ rmBuyMsg "1d" ∈ [gcMsg "1d"]) ∧
      (dcMsg "1d" ∈ [gcMsg "1d"] ∨ rmSellMsg "1d" ∈ [gcMsg "1d"])) :=
  ⟨(detect_signals_exclusive (some c9Frame) "1d" [gcMsg "1d"] rfl).1,
   (detect_signals_exclusive (some c9Frame) "1d" [gcMsg "1d"] rfl).2.1⟩

theorem calcRows_length (rows : List Row) : (calcRows rows).length = rows.length := by
  simp [calcRows]

theorem calcFrame_rows_length (f : Frame) :
    (calcFrame f).rows.length = f.rows.length := by
  unfold calcFrame
  split
  · rfl
  · simp [calcRows_length]

theorem calcFrame_cols (f : Frame) (h : f.cols = noCols) :
    (calcFrame f).cols = noCols ∨ (calcFrame f).cols = allCols := by
  unfold calcFrame
  split
  · exact Or.inl h
  · exact Or.inr rfl

theorem getLast_isSome_of_ne_nil {α : Type} (l : List α) (h : l ≠ []) :
    ∃ x, l.getLast? = some x := by
  cases hx : l.getLast? with
  | none => exact absurd (List.getLast?_eq_none_iff.mp hx) h
  | some x => exact ⟨x, rfl⟩

theorem detect_signals_ok_of_cols (f : Frame) (tf : String)
    (h2 : 2 ≤ f.rows.length) (hc : f.cols = noCols ∨ f.cols = allCols) :
    ∃ s, detect_signals (some f) tf = Except.ok s := by
  have hne : f.rows ≠ [] := by
    intro hn
    rw [hn] at h2
    simp at h2
  obtain ⟨lr, hlr⟩ := getLast_isSome_of_ne_nil f.rows hne
  have hne2 : f.rows.dropLast ≠ [] := by
    intro hn
    have hlen := congrArg List.length hn
    rw [List.length_dropLast] at hlen
    simp at hlen
    omega
  obtain ⟨pr, hpr⟩ := getLast_isSome_of_ne_nil _ hne2
  rcases hc with hc | hc
  · exact ⟨[], by simp [detect_signals, hlr, hpr, hc, noCols]⟩
  · exact ⟨longSignals tf lr pr (nearEma20 lr.close lr.ema20) ++
      shortSignals tf lr pr (nearEma20 lr.close lr.ema20),
      by simp [detect_signals, hlr, hpr, hc, allCols]⟩

theorem mainStep_ok (tf : String) (f : Frame) (h2 : 2 ≤ f.rows.length)
    (hc : f.cols = noCols) :
    ∃ r : MainRow, mainStep tf (some f) = Except.ok (some r) ∧ r.label = tf := by
  have h2' : 2 ≤ (calcFrame f).rows.length := by
    rw [calcFrame_rows_length]
    exact h2
  obtain ⟨s, hs⟩ := detect_signals_ok_of_cols (calcFrame f) tf h2' (calcFrame_cols f hc)
  have hne : (calcFrame f).rows ≠ [] := by
    intro hn
    rw [hn] at h2'
    simp at h2'
  obtain ⟨lr, hlr⟩ := getLast_isSome_of_ne_nil _ hne
  exact ⟨⟨tf, lr.close, analyze_trend (some (calcFrame f)) tf,
      (if (calcFrame f).cols.sma200 then lr.sma200.getD 0 else 0),
      (if (calcFrame f).cols.macd then lr.macd.getD 0 else 0)⟩,
    by simp [mainStep, hs, hlr], rfl⟩

/-- C4 amended: in the CLI orchestrator a timeframe whose fetch failed
contributes no row at all (the error is only printed); the loop does continue
with the remaining timeframes, so the summary has one row per *successful*
fetch, in order — not one per configured timeframe.  (Stated for runs whose
successful fetches have ≥ 2 bars and plain OHLCV columns, as `fetch_data`
produces; otherwise `detect_signals` raises and aborts the run.) -/
theorem mainRows_skips_failed_fetches (fetches : List (String × Option Frame))
    (h : ∀ p ∈ fetches, ∀ f, p.2 = some f → 2 ≤ f.rows.length ∧ f.cols = noCols) :
    ∃ rs, mainRows fetches = Except.ok rs ∧
      rs.map MainRow.label = (fetches.filter (fun p => p.2.isSome)).map Prod.fst ∧
      rs.length = (fetches.filter (fun p => p.2.isSome)).length := by
  induction fetches with
  | nil => exact ⟨[], rfl, rfl, rfl⟩
  | cons p rest ih =>
    obtain ⟨rs, hrs, hmap, hlen⟩ :=
      ih (fun q hq f hf => h q (List.mem_cons_of_mem _ hq) f hf)
    obtain ⟨tf, df0⟩ := p
    cases df0 with
    | none =>
      refine ⟨rs, ?_, ?_, ?_⟩
      · simp [mainRows, mainStep, hrs]
      · simpa [List.filter_cons] using hmap
      · simpa [List.filter_cons] using hlen
    | some f =>
      have hp := h (tf, some f) (List.mem_cons_self _ _) f rfl
      obtain ⟨r, hr, hlab⟩ := mainStep_ok tf f hp.1 hp.2
      refine ⟨r :: rs, ?_, ?_, ?_⟩
      · simp [mainRows, hr, hrs]
      · simp [List.filter_cons, hmap, hlab]
      · simp [List.filter_cons, hlen]

/-- A run over two timeframes: the first fetch fails, the second returns two
plain bars. -/
def c4Fetches : List (String × Option Frame) :=
  [("1M", none), ("1w", some twoBarFrame)]

/-- C4 counterexample: with 2 configured timeframes and one failed fetch the
summary holds a single row — the failed timeframe gets no error row, so the
row count (1) differs from the configured timeframe count (2). -/
theorem mainRows_failure_omits_row_cex :
    mainRows c4Fetches =
      Except.ok [⟨"1w", 1, "データ不足 (>200本必要)", 0, 0⟩] ∧
    c4Fetches.length = 2 ∧
    ([(⟨"1w", 1, "データ不足 (>200本必要)", 0, 0⟩ : MainRow)]).length = 1 :=
  ⟨rfl, rfl, rfl⟩

theorem mainRows_skips_failed_fetches_witness :
    ∃ rs, mainRows c4Fetches = Except.ok rs ∧
      rs.map MainRow.label = (c4Fetches.filter (fun p => p.2.isSome)).map Prod.fst ∧
      rs.length = (c4Fetches.filter (fun p => p.2.isSome)).length := by
  apply mainRows_skips_failed_fetches
  intro p hp f hf
  rcases List.mem_cons.mp hp with h1 | h1
  · subst h1
    exact absurd hf (by simp)
  · rcases List.mem_cons.mp h1 with h2 | h2
    · subst h2
      injection hf with hf
      subst hf
      exact ⟨by decide, rfl⟩
    · exact absurd h2 (List.not_mem_nil p)
